import Mathlib

/-!
# Verification of the Interactive_agenda activity tracker

A shallow embedding of the C sources (`Source.c`, `Helper.c`, `Helper.h`) of
the Interactive_agenda repository, together with theorems settling the
specification claims about it.

Modelling conventions:
* C `int` time fields (`atime.hour`, `atime.minute`, `struct tm.tm_hour`,
  `struct tm.tm_min`) become `Int`.
* The static per-function latch state of `is_scheduled` / `is_due_soon`
  (`previous_min : int`, `check_flags : int` bitmask) becomes an explicit
  `LatchState` record threaded through step functions.
* The blocking yes/no confirmation loop of `activity_time` always terminates
  with a token equal to "yes" or "no"; the accepted token is passed in as a
  `Bool` (`true` = "yes").
* The `double total_time` accumulator of the clock is embedded as an exact
  rational; the C conversion `time_t += double` truncates, which for the
  nonnegative quantities involved is `Int.floor`.
* Fallible scanning (`sscanf`) returns `Option`.
-/

/-- `atime` from Helper.h: hour/minute of an activity start or end time. -/
structure atime where
  hour : Int
  minute : Int
deriving DecidableEq, Repr

/-- The two fields of C `struct tm` that the program reads. -/
structure Tm where
  tm_hour : Int
  tm_min : Int
deriving DecidableEq, Repr

/-- `activity` from Helper.h: name, start/end time, completion flag
(C `int done`, only ever 0 or 1, embedded as `Bool`). -/
structure Activity where
  name : String
  start_time : atime
  end_time : atime
  done : Bool
deriving DecidableEq, Repr

/-- `is_activity_time` from Helper.c: whether the current time `t` is within
the activity's scheduled time.  Direct translation of the C branch structure. -/
def is_activity_time (a : Activity) (t : Tm) : Bool :=
  if a.start_time.hour < t.tm_hour ∧ a.end_time.hour > t.tm_hour then
    true
  else if a.start_time.hour = t.tm_hour then
    if a.start_time.minute ≤ t.tm_min ∧ a.end_time.minute > t.tm_min then
      true
    else if a.end_time.hour > t.tm_hour ∧ a.start_time.minute ≤ t.tm_min then
      true
    else
      false
  else if a.end_time.hour = t.tm_hour then
    if a.end_time.minute > t.tm_min then true else false
  else
    false

/-- Minute-of-day of an `atime`, for stating window membership. -/
def atime.total (x : atime) : Int := 60 * x.hour + x.minute

/-- Minute-of-day of a `Tm` sample. -/
def Tm.total (t : Tm) : Int := 60 * t.tm_hour + t.tm_min

/-- C2: for every activity whose times are in range with `start < end` in
hour:minute lexical order, and every in-range sample time `t`,
`is_activity_time` returns true exactly when `t` lies in the half-open
window `[start, end)` at minute granularity. -/
theorem is_activity_time_iff_in_window (a : Activity) (t : Tm)
    (hsh0 : 0 ≤ a.start_time.hour) (hsh1 : a.start_time.hour ≤ 23)
    (hsm0 : 0 ≤ a.start_time.minute) (hsm1 : a.start_time.minute ≤ 59)
    (heh0 : 0 ≤ a.end_time.hour) (heh1 : a.end_time.hour ≤ 23)
    (hem0 : 0 ≤ a.end_time.minute) (hem1 : a.end_time.minute ≤ 59)
    (hth0 : 0 ≤ t.tm_hour) (hth1 : t.tm_hour ≤ 23)
    (htm0 : 0 ≤ t.tm_min) (htm1 : t.tm_min ≤ 59)
    (hlt : a.start_time.hour < a.end_time.hour ∨
      (a.start_time.hour = a.end_time.hour ∧
        a.start_time.minute < a.end_time.minute)) :
    is_activity_time a t = true ↔
      (a.start_time.total ≤ t.total ∧ t.total < a.end_time.total) := by
  unfold is_activity_time atime.total Tm.total
  split_ifs <;> simp_all <;> omega

/-- Witness for C2 at a concrete input: the "Lunch" window 11:00-12:00
contains 11:30. -/
theorem is_activity_time_iff_in_window_witness :
    is_activity_time ⟨"Lunch", ⟨11, 0⟩, ⟨12, 0⟩, false⟩ ⟨11, 30⟩ = true :=
  (is_activity_time_iff_in_window ⟨"Lunch", ⟨11, 0⟩, ⟨12, 0⟩, false⟩ ⟨11, 30⟩
    (by decide) (by decide) (by decide) (by decide) (by decide) (by decide)
    (by decide) (by decide) (by decide) (by decide) (by decide) (by decide)
    (by decide)).mpr (by decide)

/-- `activity_time` from Helper.c, the interaction gate.  The blocking
re-prompt loop terminates with a token equal to "yes" or "no"; `r = true`
stands for the accepted token "yes".  Returns the updated activity and the
C return value (0 when marked done, 1 otherwise). -/
def activity_time_step (a : Activity) (r : Bool) : Activity × Nat :=
  if a.done = false then
    if r then ({ a with done := true }, 0) else (a, 1)
  else
    (a, 1)

/-- The static state shared by all calls of `is_scheduled` (and, separately,
of `is_due_soon`): `previous_min` (a C `static int`, initially 0) and the
`check_flags` bitmask (bit `i` = activity index `i` already latched). -/
structure LatchState where
  prev : Int
  flags : Nat
deriving DecidableEq, Repr

/-- Initial static state: `previous_min = 0`, `check_flags = 0`. -/
def latchInit : LatchState := ⟨0, 0⟩

/-- `is_scheduled` from Helper.c as a step function on the latch state.
Order of effects, as in the source: `previous_min` is initialised from
`t->tm_min` when it is 0; the fire condition reads the *old* bitmask; on
fire the interaction gate `activity_time` runs (response `r`); bit `i` is
set unconditionally; finally, if `t->tm_min` differs from `previous_min`
the whole mask is cleared and `previous_min` updated.  Returns the
(possibly gate-updated) activity, the C return value, and the new state. -/
def is_scheduled_step (a : Activity) (i : Nat) (t : Tm) (r : Bool)
    (s : LatchState) : Activity × Nat × LatchState :=
  let prev1 : Int := if s.prev = 0 then t.tm_min else s.prev
  let fire : Bool := !s.flags.testBit i &&
    (a.start_time.hour == t.tm_hour && a.start_time.minute == t.tm_min)
  let a2 := if fire then (activity_time_step a r).1 else a
  let rv : Nat := if fire then 1 else 0
  let flags1 := s.flags ||| 2 ^ i
  if t.tm_min ≠ prev1 then (a2, rv, ⟨t.tm_min, 0⟩) else (a2, rv, ⟨prev1, flags1⟩)

/-- `is_due_soon` from Helper.c as a step function on its own latch state.
The fire condition is: bit `i` clear, `is_activity_time` holds, and either
`end.hour == t.hour && end.minute - t.min == 10` or
`end.hour == t.hour + 1 && (end.minute + 60) - t.min == 10` (C `int`
arithmetic, embedded as `Int`).  Latch bookkeeping is identical to
`is_scheduled`. -/
def is_due_soon_step (a : Activity) (i : Nat) (t : Tm) (r : Bool)
    (s : LatchState) : Activity × Nat × LatchState :=
  let prev1 : Int := if s.prev = 0 then t.tm_min else s.prev
  let fire : Bool := !s.flags.testBit i && is_activity_time a t &&
    ((a.end_time.hour == t.tm_hour && a.end_time.minute - t.tm_min == 10) ||
     (a.end_time.hour == t.tm_hour + 1 && (a.end_time.minute + 60) - t.tm_min == 10))
  let a2 := if fire then (activity_time_step a r).1 else a
  let rv : Nat := if fire then 1 else 0
  let flags1 := s.flags ||| 2 ^ i
  if t.tm_min ≠ prev1 then (a2, rv, ⟨t.tm_min, 0⟩) else (a2, rv, ⟨prev1, flags1⟩)

/-- C5: when the latch bit for index `i` is clear, `is_due_soon` returns 1
exactly when `is_activity_time` holds and the remaining minutes until the
end equal 10, computed as `end.minute - t.min` in the same hour and
`end.minute + 60 - t.min` across an hour rollover. -/
theorem is_due_soon_fires_iff (a : Activity) (i : Nat) (t : Tm) (r : Bool)
    (s : LatchState) (h : s.flags.testBit i = false) :
    (is_due_soon_step a i t r s).2.1 = 1 ↔
      (is_activity_time a t = true ∧
        ((a.end_time.hour = t.tm_hour ∧ a.end_time.minute - t.tm_min = 10) ∨
         (a.end_time.hour = t.tm_hour + 1 ∧ a.end_time.minute + 60 - t.tm_min = 10))) := by
  unfold is_due_soon_step
  simp only [h, Bool.not_false, Bool.true_and]
  split_ifs <;> simp_all

/-- Witness for C5: from the initial latch state, "Lunch" (11:00-12:00) at
11:50 is exactly 10 minutes from its end across the hour rollover, so
`is_due_soon` returns 1. -/
theorem is_due_soon_fires_iff_witness :
    (is_due_soon_step ⟨"Lunch", ⟨11, 0⟩, ⟨12, 0⟩, false⟩ 3 ⟨11, 50⟩ true
      latchInit).2.1 = 1 :=
  (is_due_soon_fires_iff ⟨"Lunch", ⟨11, 0⟩, ⟨12, 0⟩, false⟩ 3 ⟨11, 50⟩ true
    latchInit (by decide)).mpr (by decide)

/-- C3 counterexample: the latch mask is *not* cleared on every minute
change.  `previous_min` is a static `int` initialised to 0 and the guard
`if (!previous_min)` treats a stored minute 0 as "unset": after a call
observed at minute 0 (which latches bit 3), a call at minute 5 first
overwrites `previous_min` with 5 and therefore never clears the mask;
a third call for index 3 at minute 5, whose activity starts exactly at
9:05, is still latched out and returns 0 even though per the claim every
activity must be eligible again in the new minute. -/
theorem latch_not_cleared_on_minute_change :
    (5 : Int) ≠ 0 ∧
    ((is_scheduled_step ⟨"A", ⟨9, 5⟩, ⟨10, 0⟩, false⟩ 3 ⟨9, 0⟩ true
        latchInit).2.2.flags ≠ 0 ∧
      (is_scheduled_step ⟨"B", ⟨8, 0⟩, ⟨9, 0⟩, false⟩ 0 ⟨9, 5⟩ true
        (is_scheduled_step ⟨"A", ⟨9, 5⟩, ⟨10, 0⟩, false⟩ 3 ⟨9, 0⟩ true
          latchInit).2.2).2.2.flags.testBit 3 = true) ∧
    (is_scheduled_step ⟨"A", ⟨9, 5⟩, ⟨10, 0⟩, false⟩ 3 ⟨9, 5⟩ true
      (is_scheduled_step ⟨"B", ⟨8, 0⟩, ⟨9, 0⟩, false⟩ 0 ⟨9, 5⟩ true
        (is_scheduled_step ⟨"A", ⟨9, 5⟩, ⟨10, 0⟩, false⟩ 3 ⟨9, 0⟩ true
          latchInit).2.2).2.2).2.1 = 0 := by
  decide

/-- C3 as amended: the latch update of `is_scheduled` and `is_due_soon` per
call is: with `prev1` the stored previous minute after the "unset" fixup
(a stored 0 is replaced by the current minute), the whole mask is cleared
and the previous minute updated exactly when `t.tm_min ≠ prev1`; so the
mask is cleared when the stored previous minute is neither 0 nor the
current minute, and is never cleared on a transition out of a stored
minute 0 (bit `i` is set unconditionally in that case). -/
theorem latch_clearing_rule (a b : Activity) (i j : Nat) (t : Tm) (r q : Bool)
    (s : LatchState) :
    (s.prev ≠ 0 → t.tm_min ≠ s.prev →
      (is_scheduled_step a i t r s).2.2 = ⟨t.tm_min, 0⟩ ∧
      (is_due_soon_step b j t q s).2.2 = ⟨t.tm_min, 0⟩) ∧
    (s.prev = 0 →
      (is_scheduled_step a i t r s).2.2 = ⟨t.tm_min, s.flags ||| 2 ^ i⟩ ∧
      (is_due_soon_step b j t q s).2.2 = ⟨t.tm_min, s.flags ||| 2 ^ j⟩) ∧
    (t.tm_min = s.prev →
      (is_scheduled_step a i t r s).2.2 = ⟨s.prev, s.flags ||| 2 ^ i⟩ ∧
      (is_due_soon_step b j t q s).2.2 = ⟨s.prev, s.flags ||| 2 ^ j⟩) := by
  refine ⟨fun h1 h2 => ?_, fun h1 => ?_, fun h1 => ?_⟩ <;>
    exact by
      simp only [is_scheduled_step, is_due_soon_step]
      constructor <;> (split_ifs <;> first | rfl | simp_all)

/-- Witness for C3 as amended: from a state that stored minute 5 with mask
bits 0, 1, 2, a call at minute 6 clears the whole mask of each trigger
kind and stores minute 6. -/
theorem latch_clearing_rule_witness :
    (is_scheduled_step ⟨"A", ⟨9, 5⟩, ⟨10, 0⟩, false⟩ 0 ⟨9, 6⟩ true
      ⟨5, 7⟩).2.2 = ⟨6, 0⟩ ∧
    (is_due_soon_step ⟨"B", ⟨8, 0⟩, ⟨9, 0⟩, false⟩ 1 ⟨9, 6⟩ false
      ⟨5, 7⟩).2.2 = ⟨6, 0⟩ :=
  (latch_clearing_rule ⟨"A", ⟨9, 5⟩, ⟨10, 0⟩, false⟩
    ⟨"B", ⟨8, 0⟩, ⟨9, 0⟩, false⟩ 0 1 ⟨9, 6⟩ true false ⟨5, 7⟩).1
    (by decide) (by decide)

/-- One recorded call to `is_scheduled` or `is_due_soon`: the activity
pointer's contents, the activity index, the sampled time and the gate
response used if the call fires. -/
structure LCall where
  a : Activity
  idx : Nat
  t : Tm
  r : Bool

/-- Runs a sequence of `is_scheduled` calls from a latch state and reports
whether no call for activity index `i` returned 1. -/
def schedNoFire (i : Nat) : List LCall → LatchState → Bool
  | [], _ => true
  | c :: cs, s =>
    (c.idx != i || (is_scheduled_step c.a c.idx c.t c.r s).2.1 == 0) &&
      schedNoFire i cs (is_scheduled_step c.a c.idx c.t c.r s).2.2

/-- Runs a sequence of `is_due_soon` calls from a latch state and reports
whether no call for activity index `i` returned 1. -/
def dueNoFire (i : Nat) : List LCall → LatchState → Bool
  | [], _ => true
  | c :: cs, s =>
    (c.idx != i || (is_due_soon_step c.a c.idx c.t c.r s).2.1 == 0) &&
      dueNoFire i cs (is_due_soon_step c.a c.idx c.t c.r s).2.2

/-- A call whose minute matches the stored previous minute (or whose stored
previous minute is the "unset" 0) leaves the previous minute equal to the
call minute and only adds bit `i` to the `is_scheduled` mask. -/
theorem sched_step_same_minute (a : Activity) (i : Nat) (t : Tm) (r : Bool)
    (s : LatchState) (h : s.prev = 0 ∨ s.prev = t.tm_min) :
    (is_scheduled_step a i t r s).2.2 = ⟨t.tm_min, s.flags ||| 2 ^ i⟩ := by
  simp only [is_scheduled_step]
  rcases h with h | h <;> split_ifs <;> simp_all

/-- Analogue of `sched_step_same_minute` for the `is_due_soon` latch. -/
theorem due_step_same_minute (a : Activity) (i : Nat) (t : Tm) (r : Bool)
    (s : LatchState) (h : s.prev = 0 ∨ s.prev = t.tm_min) :
    (is_due_soon_step a i t r s).2.2 = ⟨t.tm_min, s.flags ||| 2 ^ i⟩ := by
  simp only [is_due_soon_step]
  rcases h with h | h <;> split_ifs <;> simp_all

/-- A latched activity index never fires in `is_scheduled`. -/
theorem sched_step_latched_ret (a : Activity) (i : Nat) (t : Tm) (r : Bool)
    (s : LatchState) (hb : s.flags.testBit i = true) :
    (is_scheduled_step a i t r s).2.1 = 0 := by
  simp only [is_scheduled_step, hb]
  split_ifs <;> simp_all

/-- A latched activity index never fires in `is_due_soon`. -/
theorem due_step_latched_ret (a : Activity) (i : Nat) (t : Tm) (r : Bool)
    (s : LatchState) (hb : s.flags.testBit i = true) :
    (is_due_soon_step a i t r s).2.1 = 0 := by
  simp only [is_due_soon_step, hb]
  split_ifs <;> simp_all

/-- While every call stays in minute `M` and bit `i` is latched with stored
previous minute `M`, no `is_scheduled` call for index `i` returns 1. -/
theorem schedNoFire_of_latched (i : Nat) (M : Int) :
    ∀ (cs : List LCall) (s : LatchState), s.prev = M →
      s.flags.testBit i = true → (∀ c ∈ cs, c.t.tm_min = M) →
      schedNoFire i cs s = true := by
  intro cs
  induction cs with
  | nil => intro s _ _ _; rfl
  | cons c cs ih =>
    intro s hp hb hm
    have hmin : c.t.tm_min = M := hm c (List.mem_cons_self c cs)
    have hpost : (is_scheduled_step c.a c.idx c.t c.r s).2.2 =
        ⟨c.t.tm_min, s.flags ||| 2 ^ c.idx⟩ :=
      sched_step_same_minute c.a c.idx c.t c.r s (Or.inr (by omega))
    simp only [schedNoFire, Bool.and_eq_true, Bool.or_eq_true]
    refine ⟨?_, ?_⟩
    · by_cases hidx : c.idx = i
      · right
        subst hidx
        simp [sched_step_latched_ret c.a c.idx c.t c.r s hb]
      · left
        simp [hidx]
    · refine ih (is_scheduled_step c.a c.idx c.t c.r s).2.2 ?_ ?_
        (fun d hd => hm d (List.mem_cons_of_mem c hd))
      · rw [hpost]; exact hmin
      · rw [hpost]
        simp [Nat.testBit_lor, hb]

/-- Analogue of `schedNoFire_of_latched` for `is_due_soon`. -/
theorem dueNoFire_of_latched (i : Nat) (M : Int) :
    ∀ (cs : List LCall) (s : LatchState), s.prev = M →
      s.flags.testBit i = true → (∀ c ∈ cs, c.t.tm_min = M) →
      dueNoFire i cs s = true := by
  intro cs
  induction cs with
  | nil => intro s _ _ _; rfl
  | cons c cs ih =>
    intro s hp hb hm
    have hmin : c.t.tm_min = M := hm c (List.mem_cons_self c cs)
    have hpost : (is_due_soon_step c.a c.idx c.t c.r s).2.2 =
        ⟨c.t.tm_min, s.flags ||| 2 ^ c.idx⟩ :=
      due_step_same_minute c.a c.idx c.t c.r s (Or.inr (by omega))
    simp only [dueNoFire, Bool.and_eq_true, Bool.or_eq_true]
    refine ⟨?_, ?_⟩
    · by_cases hidx : c.idx = i
      · right
        subst hidx
        simp [due_step_latched_ret c.a c.idx c.t c.r s hb]
      · left
        simp [hidx]
    · refine ih (is_due_soon_step c.a c.idx c.t c.r s).2.2 ?_ ?_
        (fun d hd => hm d (List.mem_cons_of_mem c hd))
      · rw [hpost]; exact hmin
      · rw [hpost]
        simp [Nat.testBit_lor, hb]

/-- C6 as amended: if `is_scheduled` fires for activity index `i` at a call
whose minute agrees with the stored previous minute (or the stored previous
minute is the initial "unset" 0), then no later call for index `i` fires
again as long as every intervening call stays in the same minute; and
likewise for `is_due_soon` with its own latch.  (Without the agreement
proviso the property fails: a fire on the very call that changes the minute
is followed by a full mask clear at the end of that same call, see the
counterexample.) -/
theorem no_refire_within_same_minute :
    (∀ (a : Activity) (i : Nat) (t : Tm) (r : Bool) (s : LatchState)
        (cs : List LCall),
      s.prev = 0 ∨ s.prev = t.tm_min →
      (is_scheduled_step a i t r s).2.1 = 1 →
      (∀ c ∈ cs, c.t.tm_min = t.tm_min) →
      schedNoFire i cs (is_scheduled_step a i t r s).2.2 = true) ∧
    (∀ (a : Activity) (i : Nat) (t : Tm) (r : Bool) (s : LatchState)
        (cs : List LCall),
      s.prev = 0 ∨ s.prev = t.tm_min →
      (is_due_soon_step a i t r s).2.1 = 1 →
      (∀ c ∈ cs, c.t.tm_min = t.tm_min) →
      dueNoFire i cs (is_due_soon_step a i t r s).2.2 = true) := by
  constructor
  · intro a i t r s cs hpre _hfire hm
    rw [sched_step_same_minute a i t r s hpre]
    exact schedNoFire_of_latched i t.tm_min cs ⟨t.tm_min, s.flags ||| 2 ^ i⟩
      rfl (by simp [Nat.testBit_lor]) hm
  · intro a i t r s cs hpre _hfire hm
    rw [due_step_same_minute a i t r s hpre]
    exact dueNoFire_of_latched i t.tm_min cs ⟨t.tm_min, s.flags ||| 2 ^ i⟩
      rfl (by simp [Nat.testBit_lor]) hm

/-- C6 counterexample: `is_scheduled` can fire twice for the same activity
index within the same observed minute.  After a call at minute 5 (which
stores 5), the activity with index 0 starting at 9:06 fires at the first
call of minute 6; the end of that very call clears the whole mask, so an
immediately following call, still at 9:06, fires again for index 0 with no
intervening minute change. -/
theorem is_scheduled_double_fire :
    (is_scheduled_step ⟨"Y", ⟨9, 6⟩, ⟨10, 0⟩, false⟩ 0 ⟨9, 6⟩ false
      (is_scheduled_step ⟨"X", ⟨8, 0⟩, ⟨9, 0⟩, false⟩ 1 ⟨9, 5⟩ false
        latchInit).2.2).2.1 = 1 ∧
    (is_scheduled_step ⟨"Y", ⟨9, 6⟩, ⟨10, 0⟩, false⟩ 0 ⟨9, 6⟩ false
      (is_scheduled_step ⟨"Y", ⟨9, 6⟩, ⟨10, 0⟩, false⟩ 0 ⟨9, 6⟩ false
        (is_scheduled_step ⟨"X", ⟨8, 0⟩, ⟨9, 0⟩, false⟩ 1 ⟨9, 5⟩ false
          latchInit).2.2).2.2).2.1 = 1 ∧
    (is_scheduled_step ⟨"Y", ⟨9, 6⟩, ⟨10, 0⟩, false⟩ 0 ⟨9, 6⟩ false
      (is_scheduled_step ⟨"X", ⟨8, 0⟩, ⟨9, 0⟩, false⟩ 1 ⟨9, 5⟩ false
        latchInit).2.2).1 = ⟨"Y", ⟨9, 6⟩, ⟨10, 0⟩, false⟩ := by
  decide

/-- Witness for C6 as amended: "Lunch" (start 11:00) fires at 11:00 from the
initial state; two further calls for the same index 3 at 11:00 do not fire
again, and similarly for `is_due_soon` at 11:50. -/
theorem no_refire_within_same_minute_witness :
    schedNoFire 3
      [⟨⟨"Lunch", ⟨11, 0⟩, ⟨12, 0⟩, false⟩, 3, ⟨11, 0⟩, false⟩,
       ⟨⟨"Lunch", ⟨11, 0⟩, ⟨12, 0⟩, false⟩, 3, ⟨11, 0⟩, true⟩]
      (is_scheduled_step ⟨"Lunch", ⟨11, 0⟩, ⟨12, 0⟩, false⟩ 3 ⟨11, 0⟩ false
        latchInit).2.2 = true ∧
    dueNoFire 3
      [⟨⟨"Lunch", ⟨11, 0⟩, ⟨12, 0⟩, false⟩, 3, ⟨11, 50⟩, false⟩]
      (is_due_soon_step ⟨"Lunch", ⟨11, 0⟩, ⟨12, 0⟩, false⟩ 3 ⟨11, 50⟩ false
        latchInit).2.2 = true :=
  ⟨no_refire_within_same_minute.1 ⟨"Lunch", ⟨11, 0⟩, ⟨12, 0⟩, false⟩ 3 ⟨11, 0⟩
      false latchInit _ (Or.inl rfl) (by decide) (by decide),
   no_refire_within_same_minute.2 ⟨"Lunch", ⟨11, 0⟩, ⟨12, 0⟩, false⟩ 3 ⟨11, 50⟩
      false latchInit _ (Or.inl rfl) (by decide) (by decide)⟩

/-- The `tm_hour` field produced by `localtime` for an epoch timestamp:
hours since midnight of the local day, always normalised into 0..23
(modelled for a fixed whole-hour UTC offset `off`). -/
def localtime_tm_hour (off : Nat) (secs : Nat) : Nat := (secs + off) / 3600 % 24

/-- The guard of the main poll loop in Source.c:
`time_info.local_time->tm_hour < 24`. -/
def main_loop_guard (off : Nat) (secs : Nat) : Bool :=
  localtime_tm_hour off secs < 24

/-- C1 (code bug): the loop guard compares the `localtime` hour, which is
always in 0..23, against 24, so it holds for every simulated timestamp —
the loop never exits, contradicting both the claim and the source comment
"Loop until end of day (i.e. 24:00)".  In particular, once the simulated
clock passes midnight the hour wraps to 0 and the loop keeps running. -/
theorem main_loop_guard_always_true :
    ∀ (off secs : Nat), main_loop_guard off secs = true := by
  intro off secs
  simp only [main_loop_guard, localtime_tm_hour, decide_eq_true_eq]
  omega

/-- `ClockState`: the integral simulated timestamp `time_t current_time`
together with the shared accumulator `double total_time`, embedded as an
exact rational. -/
structure ClockState where
  cur : Int
  tot : ℚ
deriving DecidableEq

/-- One event of the clock subsystem: either the background `increment`
thread adds `q = speed_factor * delay_us / 1e6` simulated seconds to the
accumulator, or the poll loop calls `get_time`, which (when the accumulator
has reached 1.0) folds it into `current_time` — the C statement
`current_time += total_time` truncates the `double` sum into the integral
`time_t`, i.e. adds only `⌊total_time⌋` — and then zeroes the accumulator. -/
inductive ClockEv where
  | inc (q : ℚ)
  | sample
deriving DecidableEq

/-- Effect of one clock event on the clock state (Source.c `increment`,
Helper.c `get_time` lines 271-292 after the one-time initialisation). -/
def clock_step (e : ClockEv) (s : ClockState) : ClockState :=
  match e with
  | .inc q => ⟨s.cur, s.tot + q⟩
  | .sample => if 1 ≤ s.tot then ⟨s.cur + ⌊s.tot⌋, 0⟩ else s

/-- Folds a sequence of clock events over a state. -/
def clock_run (evs : List ClockEv) (s : ClockState) : ClockState :=
  evs.foldl (fun s e => clock_step e s) s

/-- Total simulated seconds produced by the ticker over a sequence. -/
def clock_produced : List ClockEv → ℚ
  | [] => 0
  | .inc q :: es => q + clock_produced es
  | .sample :: es => clock_produced es

/-- Number of `get_time` samples in a sequence. -/
def clock_samples : List ClockEv → Nat
  | [] => 0
  | .inc _ :: es => clock_samples es
  | .sample :: es => clock_samples es + 1

/-- C4 counterexample: flushing loses simulated time.  Eleven ticker
increments of 0.1 s make the accumulator 1.1; the next `get_time` adds only
the truncated 1 s to `current_time` and zeroes the accumulator, so the
amount applied (1) differs from the offset produced (1.1) and the pending
accumulator is 0 — the missing 0.1 s can never be recovered. -/
theorem clock_flush_loses_time :
    (clock_run (List.replicate 11 (ClockEv.inc (1 / 10)) ++ [ClockEv.sample])
        ⟨0, 0⟩).cur = 1 ∧
    (clock_run (List.replicate 11 (ClockEv.inc (1 / 10)) ++ [ClockEv.sample])
        ⟨0, 0⟩).tot = 0 ∧
    clock_produced (List.replicate 11 (ClockEv.inc (1 / 10)) ++ [ClockEv.sample])
        = 11 / 10 ∧
    ((clock_run (List.replicate 11 (ClockEv.inc (1 / 10)) ++ [ClockEv.sample])
        ⟨0, 0⟩).cur : ℚ) ≠
      clock_produced (List.replicate 11 (ClockEv.inc (1 / 10)) ++ [ClockEv.sample]) := by
  refine ⟨?_, ?_, ?_, ?_⟩ <;>
    norm_num [clock_run, clock_step, clock_produced, List.replicate]

/-- C4 as amended: over any sequence of nonnegative ticker increments and
`get_time` samples, the simulated time applied to `current_time` plus the
pending accumulator never exceeds the total offset produced, and undershoots
it by less than one second per sample (each flush discards the fractional
part of the accumulator); the cumulative applied amount need not equal the
produced total. -/
theorem clock_flush_conservation (evs : List ClockEv) :
    ∀ s : ClockState, 0 ≤ s.tot → (∀ q, ClockEv.inc q ∈ evs → 0 ≤ q) →
      ((clock_run evs s).cur : ℚ) + (clock_run evs s).tot ≤
          (s.cur : ℚ) + s.tot + clock_produced evs ∧
      (s.cur : ℚ) + s.tot + clock_produced evs <
        ((clock_run evs s).cur : ℚ) + (clock_run evs s).tot +
          clock_samples evs + 1 := by
  induction evs with
  | nil =>
    intro s _ _
    simp only [clock_run, List.foldl_nil, clock_produced, clock_samples]
    constructor
    · linarith
    · push_cast
      linarith
  | cons e es ih =>
    intro s h hq
    cases e with
    | inc q =>
      have hq0 : 0 ≤ q := hq q (List.mem_cons_self _ _)
      have hrec := ih ⟨s.cur, s.tot + q⟩ (add_nonneg h hq0)
        (fun p hp => hq p (List.mem_cons_of_mem _ hp))
      simp only [clock_run, List.foldl_cons, clock_step] at hrec ⊢
      simp only [clock_produced, clock_samples]
      constructor
      · linarith [hrec.1]
      · linarith [hrec.2]
    | sample =>
      by_cases hc : 1 ≤ s.tot
      · have hfl : (⌊s.tot⌋ : ℚ) ≤ s.tot := Int.floor_le s.tot
        have hfl2 : s.tot < ⌊s.tot⌋ + 1 := Int.lt_floor_add_one s.tot
        have hrec := ih ⟨s.cur + ⌊s.tot⌋, 0⟩ le_rfl
          (fun p hp => hq p (List.mem_cons_of_mem _ hp))
        simp only [clock_run, List.foldl_cons, clock_step, if_pos hc] at hrec ⊢
        simp only [clock_produced, clock_samples]
        push_cast at hrec ⊢
        constructor
        · linarith [hrec.1]
        · linarith [hrec.2]
      · have hrec := ih s h (fun p hp => hq p (List.mem_cons_of_mem _ hp))
        simp only [clock_run, List.foldl_cons, clock_step, if_neg hc] at hrec ⊢
        simp only [clock_produced, clock_samples]
        push_cast at hrec ⊢
        constructor
        · linarith [hrec.1]
        · linarith [hrec.2]

/-- Witness for C4 as amended, at the sequence "tick 1 s, sample": applied
plus pending stays between produced minus one-per-sample and produced. -/
theorem clock_flush_conservation_witness :
    ((clock_run [ClockEv.inc 1, ClockEv.sample] ⟨0, 0⟩).cur : ℚ) +
        (clock_run [ClockEv.inc 1, ClockEv.sample] ⟨0, 0⟩).tot ≤
      ((0 : Int) : ℚ) + 0 + clock_produced [ClockEv.inc 1, ClockEv.sample] ∧
    ((0 : Int) : ℚ) + 0 + clock_produced [ClockEv.inc 1, ClockEv.sample] <
      ((clock_run [ClockEv.inc 1, ClockEv.sample] ⟨0, 0⟩).cur : ℚ) +
        (clock_run [ClockEv.inc 1, ClockEv.sample] ⟨0, 0⟩).tot +
        clock_samples [ClockEv.inc 1, ClockEv.sample] + 1 :=
  clock_flush_conservation [ClockEv.inc 1, ClockEv.sample] ⟨0, 0⟩ le_rfl
    (by
      intro q hq
      simp at hq
      rw [hq]
      norm_num)

/-- C `isspace` on the characters relevant here. -/
def isSpaceC (c : Char) : Bool :=
  c == ' ' || c == '\t' || c == '\n' || c == '\x0b' || c == '\x0c' || c == '\r'

/-- Leading-whitespace skipping performed by a `%d` conversion. -/
def skipSpacesC : List Char → List Char
  | [] => []
  | c :: cs => if isSpaceC c then skipSpacesC cs else c :: cs

/-- Reads a maximal run of decimal digits, accumulating their value. -/
def readDigits : List Char → Nat → Nat × List Char
  | [], acc => (acc, [])
  | c :: cs, acc =>
    if c.isDigit then readDigits cs (10 * acc + (c.toNat - 48)) else (acc, c :: cs)

/-- An unsigned decimal number: at least one digit, maximal munch. -/
def scanUnsigned (s : List Char) : Option (Nat × List Char) :=
  match s with
  | [] => none
  | c :: _ => if c.isDigit then some (readDigits s 0) else none

/-- One `%d` conversion of `sscanf`: skip whitespace, then an optionally
signed decimal integer; fails when no digit follows. -/
def scanInt (s : List Char) : Option (Int × List Char) :=
  match skipSpacesC s with
  | '+' :: rest => (scanUnsigned rest).map (fun p => ((p.1 : Int), p.2))
  | '-' :: rest => (scanUnsigned rest).map (fun p => (-(p.1 : Int), p.2))
  | s1 => (scanUnsigned s1).map (fun p => ((p.1 : Int), p.2))

/-- `sscanf(input, "%d:%d", &hour, &minute)` restricted to the outcome the
caller tests: `some (hour, minute)` exactly when both conversions succeed
(return value 2), where the literal `:` must match immediately. -/
def sscanf_two (s : List Char) : Option (Int × Int) :=
  match scanInt s with
  | none => none
  | some (h, rest) =>
    match rest with
    | ':' :: rest2 =>
      match scanInt rest2 with
      | none => none
      | some (m, _) => some (h, m)
    | _ => none

/-- `check_input` from Helper.c: 1 for the literal "now"; otherwise 0 unless
the length is 5 with ':' at index 2, `sscanf("%d:%d")` converts twice, and
both values are in range. -/
def check_input (s : List Char) : Nat :=
  if s = "now".toList then 1
  else if ¬(s.length = 5) ∨ ¬(s.get? 2 = some ':') then 0
  else
    match sscanf_two s with
    | none => 0
    | some (h, m) => if h < 0 ∨ h > 23 ∨ m < 0 ∨ m > 59 then 0 else 1

/-- The grammar stated by the claim: the literal "now", or exactly five
characters `HH:MM` with a colon at index 2, digits in all four numeric
positions, `0 ≤ HH ≤ 23` and `0 ≤ MM ≤ 59`. -/
def claimed_time_grammar (s : List Char) : Bool :=
  s == "now".toList ||
  match s with
  | [c1, c2, c3, c4, c5] =>
    c3 == ':' && c1.isDigit && c2.isDigit && c4.isDigit && c5.isDigit &&
      decide (10 * (c1.toNat - 48) + (c2.toNat - 48) ≤ 23) &&
      decide (10 * (c4.toNat - 48) + (c5.toNat - 48) ≤ 59)
  | _ => false

/-- C7 counterexample: `check_input` accepts "12:3x", which the claimed
grammar rejects (position 4 is not a digit) — `sscanf`'s second `%d`
converts "3" and ignores the trailing "x", so the claimed "if and only if"
fails. -/
theorem check_input_accepts_non_grammar :
    check_input "12:3x".toList = 1 ∧
    claimed_time_grammar "12:3x".toList = false := by
  decide

/-- Renders an hour/minute pair as the five characters `HH:MM`. -/
def renderHHMM (h m : Nat) : List Char :=
  [Nat.digitChar (h / 10), Nat.digitChar (h % 10), ':',
   Nat.digitChar (m / 10), Nat.digitChar (m % 10)]

/-- C7 as amended: `check_input` accepts "now" and every zero-padded
in-range `HH:MM`, and rejects the claim's listed examples "9:30", "24:00"
and "12:60"; but the numeric fields go through `sscanf("%d:%d")`, which
tolerates non-digit characters (whitespace, a sign, trailing junk such as
"12:3x"), so acceptance is *not* limited to digits-only strings; every
accepted string other than "now" still has length 5 with ':' at index 2. -/
theorem check_input_characterisation :
    (∀ h : Fin 24, ∀ m : Fin 60, check_input (renderHHMM h.val m.val) = 1) ∧
    check_input "now".toList = 1 ∧
    check_input "12:30".toList = 1 ∧
    check_input "9:30".toList = 0 ∧
    check_input "24:00".toList = 0 ∧
    check_input "12:60".toList = 0 ∧
    check_input "12:3x".toList = 1 ∧
    (∀ s : List Char, check_input s = 1 →
      s = "now".toList ∨ (s.length = 5 ∧ s.get? 2 = some ':')) := by
  refine ⟨by decide, by decide, by decide, by decide, by decide, by decide,
    by decide, ?_⟩
  intro s hs
  unfold check_input at hs
  split_ifs at hs with h1 h2
  all_goals first
    | exact Or.inl h1
    | exact absurd hs (by omega)
    | (push_neg at h2; exact Or.inr h2)

/-- Witness for C7 as amended (the conditional part): "11:11" is accepted,
and accordingly has length 5 with ':' at index 2. -/
theorem check_input_characterisation_witness :
    "11:11".toList = "now".toList ∨
      ("11:11".toList.length = 5 ∧ "11:11".toList.get? 2 = some ':') :=
  check_input_characterisation.2.2.2.2.2.2.2 "11:11".toList (by decide)

/-- `get_non_blocking_inputs` from Helper.c as a step function on the static
accumulator `temp_buf`/`idx` (embedded as the accumulated character list).
`buf` is the chunk returned by this poll's `read` (empty = nothing read).
The source appends the chunk and then tests only `buf[n - 1] == '\n'`, the
*last* byte of the chunk; on success the accumulated line (without the
final newline) is validated with `check_input` — `some (valid, line)`
records that a validation happened — and the accumulator is reset whether
or not the line was valid. -/
def get_non_blocking_inputs_step (buf : List Char) (acc : List Char) :
    Option (Bool × List Char) × List Char :=
  if buf = [] then (none, acc)
  else if buf.getLast? = some '\n' then
    (some (check_input (acc ++ buf.dropLast) == 1, acc ++ buf.dropLast), [])
  else (none, acc ++ buf)

/-- C8 counterexample: a newline *inside* the arriving chunk does not
trigger validation.  The chunk "12:30\nx" contains a line terminator, but
because its last byte is not the newline the poll performs no validation
and simply appends all seven bytes to the accumulator. -/
theorem newline_mid_chunk_not_validated :
    '\n' ∈ "12:30\nx".toList ∧
    (get_non_blocking_inputs_step "12:30\nx".toList []).1 = none ∧
    (get_non_blocking_inputs_step "12:30\nx".toList []).2 = "12:30\nx".toList := by
  decide

/-- C8 as amended: a poll validates the accumulated line exactly when the
chunk is nonempty and its *last* byte is the line terminator (a newline
elsewhere in the chunk is only buffered); on validation the line is the
accumulator plus the chunk minus the final newline, the recorded verdict is
`check_input`'s, and the accumulator is cleared whether the line was valid
(processed as a time query) or invalid (format hint emitted). -/
theorem input_validation_on_trailing_newline (buf acc : List Char) :
    ((get_non_blocking_inputs_step buf acc).1.isSome ↔
      (buf ≠ [] ∧ buf.getLast? = some '\n')) ∧
    (buf.getLast? = some '\n' →
      get_non_blocking_inputs_step buf acc =
        (some (check_input (acc ++ buf.dropLast) == 1, acc ++ buf.dropLast), [])) := by
  constructor
  · unfold get_non_blocking_inputs_step
    split_ifs with h1 h2 <;> simp_all
  · intro h
    have hne : buf ≠ [] := by
      intro he
      rw [he] at h
      exact absurd h (by decide)
    unfold get_non_blocking_inputs_step
    rw [if_neg hne, if_pos h]

/-- Witness for C8 as amended: the chunk "12:30\n" after an empty
accumulator triggers validation of the (valid) line "12:30" and clears the
accumulator. -/
theorem input_validation_on_trailing_newline_witness :
    get_non_blocking_inputs_step "12:30\n".toList [] =
      (some (check_input ([] ++ "12:30\n".toList.dropLast) == 1,
        [] ++ "12:30\n".toList.dropLast), []) :=
  (input_validation_on_trailing_newline "12:30\n".toList []).2 (by decide)

/-- The interaction gate only ever touches the `done` flag; the scheduled
window it is checked against is unchanged, so `is_activity_time` gives the
same answer before and after a gate visit. -/
theorem is_activity_time_gate (a : Activity) (r : Bool) (t : Tm) :
    is_activity_time (activity_time_step a r).1 t = is_activity_time a t := by
  unfold activity_time_step
  split_ifs <;> rfl

/-- `parse_time` from Helper.c as a recursion over the index order the
source iterates (`for i = MAX_ACTIVITIES - 1; i >= 0; i--`).  For each
index whose activity window contains the query time, the source prints
"Time for <name>" and routes the activity through the interaction gate
(`activity_time`, response `rs i`), records that some activity matched
(`activity_status = 0`); the result is the updated activities, the list of
routed indices in visit order, and the final `activity_status` as a
Bool (`true` = no activity matched). -/
def parse_go (t : Tm) (rs : Fin 10 → Bool) :
    List (Fin 10) → (Fin 10 → Activity) →
    (Fin 10 → Activity) × List (Fin 10) × Bool
  | [], as => (as, [], true)
  | i :: l, as =>
    if is_activity_time (as i) t then
      let res := parse_go t rs l
        (Function.update as i (activity_time_step (as i) (rs i)).1)
      (res.1, i :: res.2.1, false)
    else
      let res := parse_go t rs l as
      (res.1, res.2.1, res.2.2)

/-- `parse_time` proper: the sweep over indices 9 down to 0. -/
def parse_time_fn (as : Fin 10 → Activity) (t : Tm) (rs : Fin 10 → Bool) :
    (Fin 10 → Activity) × List (Fin 10) × Bool :=
  parse_go t rs (List.finRange 10).reverse as

/-- A gate visit inside the sweep does not change which activities match. -/
theorem update_gate_pred (as : Fin 10 → Activity) (t : Tm) (i : Fin 10)
    (b : Activity) (hb : is_activity_time b t = is_activity_time (as i) t) :
    ∀ j : Fin 10,
      is_activity_time (Function.update as i b j) t = is_activity_time (as j) t := by
  intro j
  by_cases hj : j = i
  · subst hj
    rw [Function.update_same]
    exact hb
  · rw [Function.update_noteq hj]

/-- The indices routed through the gate by the sweep are exactly the indices
whose activity window contains the query time, in visit order. -/
theorem parse_go_visited (t : Tm) (rs : Fin 10 → Bool) :
    ∀ (l : List (Fin 10)) (as : Fin 10 → Activity),
      (parse_go t rs l as).2.1 = l.filter (fun i => is_activity_time (as i) t) := by
  intro l
  induction l with
  | nil => intro as; rfl
  | cons i l ih =>
    intro as
    by_cases h : is_activity_time (as i) t
    · simp only [parse_go, if_pos h, List.filter_cons, h, if_pos]
      rw [ih (Function.update as i (activity_time_step (as i) (rs i)).1)]
      refine congrArg (List.cons i) (List.filter_congr ?_)
      intro j _
      exact update_gate_pred as t i _ (is_activity_time_gate (as i) (rs i) t) j
    · simp only [parse_go, if_neg h, List.filter_cons]
      rw [ih as]

/-- The sweep reports "no activity" exactly when no index in the visit list
matches the query time. -/
theorem parse_go_status (t : Tm) (rs : Fin 10 → Bool) :
    ∀ (l : List (Fin 10)) (as : Fin 10 → Activity),
      ((parse_go t rs l as).2.2 = true ↔
        ∀ i ∈ l, is_activity_time (as i) t = false) := by
  intro l
  induction l with
  | nil => intro as; simp [parse_go]
  | cons i l ih =>
    intro as
    by_cases h : is_activity_time (as i) t
    · simp only [parse_go, if_pos h]
      simp [h]
    · simp only [parse_go, if_neg h]
      rw [ih as]
      constructor
      · intro hall j hj
        rcases List.mem_cons.mp hj with rfl | hj
        · simpa using h
        · exact hall j hj
      · intro hall j hj
        exact hall j (List.mem_cons_of_mem i hj)

/-- C9: the query sweep visits the activities in reverse index order, routes
through the interaction gate exactly those whose window contains the query
time — the match predicate does not consult the `done` flag, so done
activities are routed too — and reports the no-activity notice precisely
when no activity's window contains the query time. -/
theorem parse_time_fn_characterisation (as : Fin 10 → Activity) (t : Tm)
    (rs : Fin 10 → Bool) :
    (parse_time_fn as t rs).2.1 =
      ((List.finRange 10).reverse).filter (fun i => is_activity_time (as i) t) ∧
    ((parse_time_fn as t rs).2.2 = true ↔
      ∀ i : Fin 10, is_activity_time (as i) t = false) := by
  constructor
  · exact parse_go_visited t rs (List.finRange 10).reverse as
  · rw [parse_time_fn, parse_go_status t rs (List.finRange 10).reverse as]
    constructor
    · intro hall i
      exact hall i (by simp [List.mem_reverse, List.mem_finRange])
    · intro hall i _
      exact hall i

/-- The compiled-in schedule from Source.c `main`. -/
def scheduleList : List Activity :=
  [⟨"Breakfast", ⟨8, 50⟩, ⟨9, 30⟩, false⟩,
   ⟨"Morning walk", ⟨9, 0⟩, ⟨10, 15⟩, false⟩,
   ⟨"House cleaning", ⟨10, 20⟩, ⟨10, 55⟩, false⟩,
   ⟨"Lunch", ⟨11, 0⟩, ⟨12, 0⟩, false⟩,
   ⟨"Afternoon nap", ⟨13, 45⟩, ⟨15, 0⟩, false⟩,
   ⟨"Grocery shopping", ⟨15, 20⟩, ⟨15, 45⟩, false⟩,
   ⟨"Cooking", ⟨16, 15⟩, ⟨17, 30⟩, false⟩,
   ⟨"Dinner", ⟨17, 45⟩, ⟨18, 30⟩, false⟩,
   ⟨"Evening reading", ⟨19, 0⟩, ⟨21, 30⟩, false⟩,
   ⟨"Get medicine", ⟨21, 30⟩, ⟨21, 45⟩, false⟩]

/-- The schedule as an index-to-activity map. -/
def schedule (i : Fin 10) : Activity :=
  scheduleList.get (Fin.cast (by decide) i)

/-- Witness for C9 at the compiled-in schedule and query time 11:30. -/
theorem parse_time_fn_characterisation_witness :
    (parse_time_fn schedule ⟨11, 30⟩ (fun _ => true)).2.1 =
      ((List.finRange 10).reverse).filter
        (fun i => is_activity_time (schedule i) ⟨11, 30⟩) ∧
    ((parse_time_fn schedule ⟨11, 30⟩ (fun _ => true)).2.2 = true ↔
      ∀ i : Fin 10, is_activity_time (schedule i) ⟨11, 30⟩ = false) :=
  parse_time_fn_characterisation schedule ⟨11, 30⟩ (fun _ => true)

/-- The body of the main poll loop in Source.c (lines 33-39): for each index
`i` in ascending order, when the activity is not done, call `is_scheduled`
and then `is_due_soon` on it, threading both latch states and any `done`
update made by the interaction gate (`rs i` = the gate responses used by
the two calls if they fire). -/
def tick_go (t : Tm) (rs : Fin 10 → Bool × Bool) :
    List (Fin 10) → (Fin 10 → Activity) → LatchState → LatchState →
    (Fin 10 → Activity) × LatchState × LatchState
  | [], as, s1, s2 => (as, s1, s2)
  | i :: l, as, s1, s2 =>
    if (as i).done = false then
      let o1 := is_scheduled_step (as i) i.val t (rs i).1 s1
      let o2 := is_due_soon_step o1.1 i.val t (rs i).2 s2
      tick_go t rs l (Function.update as i o2.1) o1.2.2 o2.2.2
    else
      tick_go t rs l as s1 s2

/-- One full pass of the poll loop body over indices 0..9. -/
def main_tick (t : Tm) (rs : Fin 10 → Bool × Bool) (as : Fin 10 → Activity)
    (s1 s2 : LatchState) : (Fin 10 → Activity) × LatchState × LatchState :=
  tick_go t rs (List.finRange 10) as s1 s2

/-- The state the program operations act on: the activity array and the two
trigger latches. -/
structure ProgState where
  as : Fin 10 → Activity
  schedLatch : LatchState
  dueLatch : LatchState

/-- The operations of the program that touch activities: a poll-loop tick at
time `t`, or a user time query resolved by `parse_time`. -/
inductive ProgOp where
  | tick (t : Tm) (rs : Fin 10 → Bool × Bool)
  | query (t : Tm) (rs : Fin 10 → Bool)

/-- Effect of one operation on the program state. -/
def prog_step (e : ProgOp) (st : ProgState) : ProgState :=
  match e with
  | .tick t rs =>
    let o := main_tick t rs st.as st.schedLatch st.dueLatch
    ⟨o.1, o.2.1, o.2.2⟩
  | .query t rs => ⟨(parse_time_fn st.as t rs).1, st.schedLatch, st.dueLatch⟩

/-- Runs a sequence of program operations. -/
def prog_run (ops : List ProgOp) (st : ProgState) : ProgState :=
  ops.foldl (fun st e => prog_step e st) st

/-- The interaction gate never clears `done`. -/
theorem activity_time_step_done_mono (a : Activity) (r : Bool)
    (h : a.done = true) : ((activity_time_step a r).1).done = true := by
  unfold activity_time_step
  split_ifs <;> simp_all

/-- `is_scheduled` never clears `done` of the activity it handles. -/
theorem sched_step_done_mono (a : Activity) (i : Nat) (t : Tm) (r : Bool)
    (s : LatchState) (h : a.done = true) :
    ((is_scheduled_step a i t r s).1).done = true := by
  have hg := activity_time_step_done_mono a r h
  unfold is_scheduled_step
  split_ifs <;> simp_all <;> split_ifs <;> simp_all

/-- `is_due_soon` never clears `done` of the activity it handles. -/
theorem due_step_done_mono (a : Activity) (i : Nat) (t : Tm) (r : Bool)
    (s : LatchState) (h : a.done = true) :
    ((is_due_soon_step a i t r s).1).done = true := by
  have hg := activity_time_step_done_mono a r h
  unfold is_due_soon_step
  split_ifs <;> simp_all <;> split_ifs <;> simp_all

/-- The poll-loop body never clears any activity's `done`. -/
theorem tick_go_done_mono (t : Tm) (rs : Fin 10 → Bool × Bool) :
    ∀ (l : List (Fin 10)) (as : Fin 10 → Activity) (s1 s2 : LatchState)
      (j : Fin 10), (as j).done = true →
      ((tick_go t rs l as s1 s2).1 j).done = true := by
  intro l
  induction l with
  | nil => intro as s1 s2 j h; exact h
  | cons i l ih =>
    intro as s1 s2 j h
    by_cases hd : (as i).done = false
    · simp only [tick_go, if_pos hd]
      refine ih _ _ _ j ?_
      by_cases hj : j = i
      · subst hj
        rw [Function.update_same]
        exact due_step_done_mono _ _ _ _ _
          (sched_step_done_mono _ _ _ _ _ h)
      · rw [Function.update_noteq hj]
        exact h
    · simp only [tick_go, if_neg hd]
      exact ih as s1 s2 j h

/-- The query sweep never clears any activity's `done`. -/
theorem parse_go_done_mono (t : Tm) (rs : Fin 10 → Bool) :
    ∀ (l : List (Fin 10)) (as : Fin 10 → Activity) (j : Fin 10),
      (as j).done = true → ((parse_go t rs l as).1 j).done = true := by
  intro l
  induction l with
  | nil => intro as j h; exact h
  | cons i l ih =>
    intro as j h
    by_cases hm : is_activity_time (as i) t
    · simp only [parse_go, if_pos hm]
      refine ih _ j ?_
      by_cases hj : j = i
      · subst hj
        rw [Function.update_same]
        exact activity_time_step_done_mono _ _ h
      · rw [Function.update_noteq hj]
        exact h
    · simp only [parse_go, if_neg hm]
      exact ih as j h

/-- C10: over any sequence of program operations — poll-loop ticks (trigger
checks plus interaction-gate confirmations, with any gate responses) and
time queries — an activity whose `done` flag is set stays done: `done` only
ever transitions false to true. -/
theorem done_flag_monotone :
    ∀ (ops : List ProgOp) (st : ProgState) (j : Fin 10),
      (st.as j).done = true → ((prog_run ops st).as j).done = true := by
  intro ops
  induction ops with
  | nil => intro st j h; exact h
  | cons e ops ih =>
    intro st j h
    show ((prog_run ops (prog_step e st)).as j).done = true
    refine ih (prog_step e st) j ?_
    cases e with
    | tick t rs =>
      exact tick_go_done_mono t rs (List.finRange 10) st.as st.schedLatch st.dueLatch j h
    | query t rs =>
      exact parse_go_done_mono t rs (List.finRange 10).reverse st.as j h

/-- Witness for C10: with "Breakfast" already done, a tick at 8:50 and a
query at 11:30 leave it done. -/
theorem done_flag_monotone_witness :
    ((Function.update schedule 0
        ⟨"Breakfast", ⟨8, 50⟩, ⟨9, 30⟩, true⟩) 0).done = true ∧
    ((prog_run [ProgOp.tick ⟨8, 50⟩ (fun _ => (true, true)),
        ProgOp.query ⟨11, 30⟩ (fun _ => false)]
      ⟨Function.update schedule 0 ⟨"Breakfast", ⟨8, 50⟩, ⟨9, 30⟩, true⟩,
        latchInit, latchInit⟩).as 0).done = true :=
  ⟨by decide,
   done_flag_monotone
     [ProgOp.tick ⟨8, 50⟩ (fun _ => (true, true)),
      ProgOp.query ⟨11, 30⟩ (fun _ => false)]
     ⟨Function.update schedule 0 ⟨"Breakfast", ⟨8, 50⟩, ⟨9, 30⟩, true⟩,
       latchInit, latchInit⟩ 0 (by decide)⟩
